import Mathlib

/-!
Shallow embedding of the coverage-run animation script
(scripts/animate/animate_coverage_run.py).  Python ints are modelled as
Int, Python floats as rationals, list and dict indexing that can raise
IndexError or KeyError as Option or Except results.  Every definition is
translated from the source file; error values carry no payload (Unit),
since only the presence of an uncaught exception matters here.
-/

/-- A grid coordinate, the pair of integers read from the CSV logs. -/
abbrev Cell := Int × Int

/-- One timestep of the map log: the parsed triples in row order.  The
Python dict built by read_map is recovered by dictLookup below, where a
later binding for the same key wins, exactly as repeated dict assignment
does. -/
abbrev MapAt := List (Cell × Int)

/-- Frames per timestep, the constant TS_LEN = 10 of the script. -/
abbrev TS_LEN : Nat := 10

/-- Nominal frame rate, the constant FPS = 25 of the script (not used by
any state computation). -/
abbrev FPS : Nat := 25

/-- The triple scan of read_map over the fields of one row after the
leading ignored field: the Python loop
for i in range(1, len(row) - 1, 3) reads row at i, i+1 and i+2.  Relative
to the sublist starting at position i this means: with at least three
fields left, consume a triple and continue; with exactly two fields left
the loop guard i less than len(row) - 1 still holds and the read of
row at i+2 is out of bounds (IndexError, modelled as error); with at most
one field left the loop stops and any remaining field is ignored. -/
def parseTriples : List Int → Except Unit MapAt
  | x :: y :: v :: rest =>
    match parseTriples rest with
    | .ok m => .ok (((x, y), v) :: m)
    | .error e => .error e
  | [] => .ok []
  | [_] => .ok []
  | [_, _] => .error ()

/-- One row of the map CSV: the leading field is ignored and the rest is
scanned in triples.  An empty row yields an empty dict, as the Python
range(1, -1, 3) is empty. -/
def parseRow : List Int → Except Unit MapAt
  | [] => .ok []
  | _ :: rest => parseTriples rest

/-- read_map from the script: parse every row into one dict per
timestep; an exception in any row aborts the whole read with no partial
result. -/
def read_map : List (List Int) → Except Unit (List MapAt)
  | [] => .ok []
  | row :: rows =>
    match parseRow row with
    | .error e => .error e
    | .ok m =>
      match read_map rows with
      | .error e => .error e
      | .ok ms => .ok (m :: ms)

/-- read_visited from the script: each row contributes the pair of its
first two fields; a row with fewer than two fields raises IndexError. -/
def read_visited : List (List Int) → Except Unit (List Cell)
  | [] => .ok []
  | row :: rows =>
    match row[0]?, row[1]? with
    | some x, some y =>
      match read_visited rows with
      | .error e => .error e
      | .ok cs => .ok ((x, y) :: cs)
    | _, _ => .error ()

/-- Lookup in a parsed row with Python dict semantics: the value of the
last triple naming the key. -/
def dictLookup : MapAt → Cell → Option Int
  | [], _ => none
  | (c0, v) :: rest, c =>
    match dictLookup rest c with
    | some v2 => some v2
    | none => if c0 = c then some v else none

/-- The grid drawing: the static dimensions fixed by draw_grid together
with the mutable fill color of every cell.  draw_grid creates one white
rectangle for each coordinate with 0 le x lt x_len and 0 le y lt y_len;
colors is semantically meaningful on exactly those keys, and inGrid below
is the membership test of the Python grid dict. -/
structure Grid where
  x_len : Nat
  y_len : Nat
  colors : Cell → String

/-- draw_grid from the script: every cell starts with facecolor white. -/
def draw_grid (x_len y_len : Nat) : Grid :=
  { x_len := x_len, y_len := y_len, colors := fun _ => "white" }

/-- Membership in the grid dict built by draw_grid. -/
def inGrid (g : Grid) (c : Cell) : Bool :=
  decide (0 ≤ c.1 ∧ c.1 < (g.x_len : Int) ∧ 0 ≤ c.2 ∧ c.2 < (g.y_len : Int))

/-- Mutation grid[cell].set_facecolor(s). -/
def setColor (g : Grid) (c : Cell) (s : String) : Grid :=
  { g with colors := fun c2 => if c2 = c then s else g.colors c2 }

/-- The key list of the grid dict: draw_grid inserts exactly the pairs
(x, y) with x below x_len and y below y_len, in that iteration order, and
no later code adds or removes a key; set_facecolor only mutates a value,
so the key list of the dict stays this one for the whole run. -/
def gridKeys (g : Grid) : List Cell :=
  (List.range g.x_len).flatMap
    (fun x => (List.range g.y_len).map (fun (y : Nat) => ((x : Int), (y : Int))))

/-- Line 107 of animate: y_len = max([k[1] for k in grid.keys()]) + 1.
Python max raises ValueError on an empty sequence, which happens exactly
when the grid dict has no keys, that is when x_len = 0 or y_len = 0. -/
def animateYLen (g : Grid) : Except Unit Int :=
  match ((gridKeys g).map (fun k => k.2)).max? with
  | none => .error ()
  | some m => .ok (m + 1)

/-- The coverage test of the frame update: cell in visited[: ts + 1]. -/
def coveredAt (visited : List Cell) (ts : Nat) (c : Cell) : Bool :=
  decide (c ∈ visited.take (ts + 1))

/-- The four-way color choice of the frame update for a cell present in
the map log at the current timestep with occupancy value occ. -/
def cellColor (visited : List Cell) (ts : Nat) (occ : Int) (c : Cell) : String :=
  if coveredAt visited ts c then
    if occ = 1 then "#007500" else "lime"
  else
    if occ = 1 then "black" else "white"

/-- The cell loop of animate: for every triple of the current map row,
set the facecolor of that grid cell; a key outside the grid dict raises
KeyError (error).  Visiting the triples in row order reproduces the final
colors of the Python dict loop, since a later duplicate overwrites. -/
def updateCells (visited : List Cell) (ts : Nat) : MapAt → Grid → Except Unit Grid
  | [], g => .ok g
  | (c, occ) :: rest, g =>
    if inGrid g c then
      updateCells visited ts rest (setColor g c (cellColor visited ts occ c))
    else
      .error ()

/-- robot_grid_to_plot_pos from the script. -/
def robot_grid_to_plot_pos (x y y_len : ℚ) : ℚ × ℚ :=
  (x + 1 / 2, y_len - (y + 1 / 2))

/-- Lines 93 to 106 of animate: the current timestep is frame / TS_LEN,
prev_loc is visited[ts] (IndexError when out of range, modelled as none),
next_loc is visited[ts + 1] when ts lt len(visited) - 1 and prev_loc
otherwise, and the returned position interpolates between them with
fraction (frame mod TS_LEN) / TS_LEN on each axis. -/
def interpPos (visited : List Cell) (frame : Nat) : Option (ℚ × ℚ) :=
  match visited[frame / TS_LEN]? with
  | none => none
  | some prev_loc =>
    let next_loc :=
      if h : frame / TS_LEN < visited.length - 1 then
        visited.get ⟨frame / TS_LEN + 1, Nat.add_lt_of_lt_sub h⟩
      else prev_loc
    let fraction : ℚ := ((frame % TS_LEN : Nat) : ℚ) / (TS_LEN : ℚ)
    some ((prev_loc.1 : ℚ) + fraction * ((next_loc.1 : ℚ) - (prev_loc.1 : ℚ)),
          (prev_loc.2 : ℚ) + fraction * ((next_loc.2 : ℚ) - (prev_loc.2 : ℚ)))

/-- The mutable drawing state touched by one frame update: the grid
colors, the robot center on the plot, and the timestep shown by the time
label. -/
structure AnimState where
  grid : Grid
  robot : ℚ × ℚ
  timeLabel : Nat

/-- One call of animate for a given frame, in source order: index
visited and interpolate (lines 94 to 106, via interpPos, IndexError when
the timestep is out of the visited log), compute the y length as max
over the grid keys plus one (line 107, via animateYLen, ValueError when
the grid is empty), set the robot center through robot_grid_to_plot_pos
(line 108), set the time label, then index map_dynamics at the timestep
(line 114, IndexError when out of the map log) and run the cell loop. -/
def animate (visited : List Cell) (mapDyn : List MapAt) (st : AnimState)
    (frame : Nat) : Except Unit AnimState :=
  match interpPos visited frame with
  | none => .error ()
  | some pos =>
    match animateYLen st.grid with
    | .error e => .error e
    | .ok y_len =>
      match mapDyn[frame / TS_LEN]? with
      | none => .error ()
      | some m =>
        match updateCells visited (frame / TS_LEN) m st.grid with
        | .error e => .error e
        | .ok g =>
          .ok { grid := g,
                robot := robot_grid_to_plot_pos pos.1 pos.2 (y_len : ℚ),
                timeLabel := frame / TS_LEN }

/-- Sequential playback of the first n frame updates, frames 0 to n - 1,
threading the drawing state; the first uncaught exception aborts. -/
def runPlayback (visited : List Cell) (mapDyn : List MapAt) (st : AnimState) :
    Nat → Except Unit AnimState
  | 0 => .ok st
  | n + 1 =>
    match runPlayback visited mapDyn st n with
    | .error e => .error e
    | .ok st2 => animate visited mapDyn st2 n

/-- The total frame count set up by run_animation: TS_LEN * len(visited). -/
def totalFrames (visited : List Cell) : Nat :=
  TS_LEN * visited.length

/-- The drawing state right after setup in run_animation: the all-white
grid from draw_grid, the robot placed at the start location by
generate_robot, the time label at 0. -/
def initAnimState (x_len y_len : Nat) (start : Cell) : AnimState :=
  { grid := draw_grid x_len y_len,
    robot := robot_grid_to_plot_pos (start.1 : ℚ) (start.2 : ℚ) (y_len : ℚ),
    timeLabel := 0 }

/-- run_animation with already loaded logs, truncated to its core state
behavior: draw the all-white grid, place the robot at visited[0]
(IndexError when the path is empty), then play frames.  The parameter n
is how many frame updates are applied; the full run uses
n = totalFrames visited.  No consistency check between the two logs is
performed before playback starts, exactly as in the source. -/
def run_animation (x_len y_len : Nat) (visited : List Cell)
    (mapDyn : List MapAt) (n : Nat) : Except Unit AnimState :=
  match visited[0]? with
  | none => .error ()
  | some start =>
    runPlayback visited mapDyn (initAnimState x_len y_len start) n

theorem parseTriples_mod3 (n : Nat) : ∀ l : List Int, l.length ≤ n →
    (l.length % 3 = 0 → ∃ m, parseTriples l = .ok m)
    ∧ (l.length % 3 = 1 →
        (∃ m, parseTriples l = .ok m) ∧ parseTriples l = parseTriples l.dropLast)
    ∧ (l.length % 3 = 2 → parseTriples l = .error ()) := by
  induction n with
  | zero =>
    intro l hl
    have : l = [] := List.length_eq_zero.mp (Nat.le_zero.mp hl)
    subst this
    refine ⟨fun _ => ⟨[], rfl⟩, fun h => ?_, fun h => ?_⟩ <;> simp at h
  | succ n ih =>
    intro l hl
    match l with
    | [] => exact ⟨fun _ => ⟨[], rfl⟩, fun h => by simp at h, fun h => by simp at h⟩
    | [a] =>
      refine ⟨fun h => by simp at h, fun _ => ⟨⟨[], rfl⟩, rfl⟩, fun h => by simp at h⟩
    | [a, b] =>
      refine ⟨fun h => by simp at h, fun h => by simp at h, fun _ => rfl⟩
    | a :: b :: c :: rest =>
      have hr := ih rest (by simp at hl ⊢; omega)
      have hlen : (a :: b :: c :: rest).length % 3 = rest.length % 3 := by
        simp [List.length_cons]
        omega
      refine ⟨fun h => ?_, fun h => ?_, fun h => ?_⟩
      · rw [hlen] at h
        obtain ⟨m, hm⟩ := hr.1 h
        exact ⟨((a, b), c) :: m, by simp [parseTriples, hm]⟩
      · rw [hlen] at h
        obtain ⟨⟨m, hm⟩, hdrop⟩ := hr.2.1 h
        have hne : rest ≠ [] := by
          intro hrest; subst hrest; simp at h
        constructor
        · exact ⟨((a, b), c) :: m, by simp [parseTriples, hm]⟩
        · have hdl : (a :: b :: c :: rest).dropLast = a :: b :: c :: rest.dropLast := by
            match rest, hne with
            | d :: r2, _ => simp [List.dropLast]
          rw [hdl]
          simp [parseTriples, hdrop]
      · rw [hlen] at h
        have he := hr.2.2 h
        simp [parseTriples, he]

theorem parseTriples_cases (l : List Int) :
    (l.length % 3 = 0 → ∃ m, parseTriples l = .ok m)
    ∧ (l.length % 3 = 1 →
        (∃ m, parseTriples l = .ok m) ∧ parseTriples l = parseTriples l.dropLast)
    ∧ (l.length % 3 = 2 → parseTriples l = .error ()) :=
  parseTriples_mod3 l.length l le_rfl

/-- C10: the triple scan of read_map runs over starts i = 1, 4, and so on
while i is less than len(row) - 1 and reads row at i, i + 1 and i + 2.
Consequently a row whose field count is congruent to 2 modulo 3 parses
successfully with its final field silently ignored (the parse equals the
parse of the row without that field), while a row whose field count is
congruent to 0 modulo 3 and at least 3 hits an out-of-bounds read of
row at i + 2 in the last window, an uncaught IndexError. -/
theorem parseRow_stride_window (row : List Int) :
    (row.length % 3 = 2 →
      (∃ m, parseRow row = .ok m) ∧ parseRow row = parseRow row.dropLast)
    ∧ (row.length % 3 = 0 → 3 ≤ row.length → parseRow row = .error ()) := by
  constructor
  · intro h
    match row with
    | t :: rest =>
      have hr : rest.length % 3 = 1 := by simp at h ⊢; omega
      obtain ⟨⟨m, hm⟩, hdrop⟩ := (parseTriples_cases rest).2.1 hr
      have hne : rest ≠ [] := by intro hrest; subst hrest; simp at hr
      have hdl : (t :: rest).dropLast = t :: rest.dropLast := by
        match rest, hne with
        | d :: r2, _ => simp [List.dropLast]
      refine ⟨⟨m, hm⟩, ?_⟩
      rw [hdl]
      simpa [parseRow] using hdrop
  · intro h h3
    match row with
    | t :: rest =>
      have hr : rest.length % 3 = 2 := by simp at h ⊢; omega
      simpa [parseRow] using (parseTriples_cases rest).2.2 hr

theorem parseRow_stride_window_witness :
    ((∃ m, parseRow [9, 5] = .ok m) ∧ parseRow [9, 5] = parseRow ([9, 5] : List Int).dropLast)
    ∧ parseRow [1, 2, 3, 4, 5, 6] = .error () :=
  ⟨(parseRow_stride_window [9, 5]).1 (by decide),
   (parseRow_stride_window [1, 2, 3, 4, 5, 6]).2 (by decide) (by decide)⟩

/-- C5 counterexample: read_map raises nothing at all on a row whose
occupancy value 2 is outside the set containing 0 and 1, and nothing on a
row whose field count after the leading field (here one field) is not a
multiple of three; both parse successfully, so no MalformedLogError or any
other error is raised and a full parse is produced. -/
theorem read_map_malformed_counterexample :
    parseRow [9, 0, 1, 2] = .ok [((0, 1), 2)]
    ∧ parseRow [9, 5] = .ok []
    ∧ read_map [[9, 0, 1, 2]] = .ok [[((0, 1), 2)]] :=
  ⟨rfl, rfl, rfl⟩

/-- C5 amended: read_map validates nothing.  Any occupancy value,
binary or not, is stored unchanged without error; a row whose total field
count is congruent to 2 modulo 3 (one leftover field after the leading
field and the triples) parses successfully; the only failure is an
uncaught IndexError, not a MalformedLogError, on a row whose total field
count is a positive multiple of 3; and a failing row aborts read_map
immediately with no partial result. -/
theorem read_map_no_validation :
    (∀ t x y v : Int, parseRow [t, x, y, v] = .ok [((x, y), v)])
    ∧ (∀ row : List Int, row.length % 3 = 2 → ∃ m, parseRow row = .ok m)
    ∧ (∀ row : List Int, row.length % 3 = 0 → 3 ≤ row.length →
        parseRow row = .error ())
    ∧ (∀ (row : List Int) (rows : List (List Int)), parseRow row = .error () →
        read_map (row :: rows) = .error ()) := by
  refine ⟨fun t x y v => rfl, fun row h => ?_, fun row h h3 => ?_, fun row rows he => ?_⟩
  · match row with
    | t :: rest =>
      have hr : rest.length % 3 = 1 := by simp at h ⊢; omega
      obtain ⟨⟨m, hm⟩, _⟩ := (parseTriples_cases rest).2.1 hr
      exact ⟨m, hm⟩
  · match row with
    | t :: rest =>
      have hr : rest.length % 3 = 2 := by simp at h ⊢; omega
      simpa [parseRow] using (parseTriples_cases rest).2.2 hr
  · simp [read_map, he]

theorem read_map_no_validation_witness :
    (∃ m, parseRow [9, 5] = .ok m)
    ∧ parseRow [1, 2, 3, 4, 5, 6] = .error ()
    ∧ read_map [[1, 2, 3, 4, 5, 6]] = .error () :=
  ⟨read_map_no_validation.2.1 [9, 5] (by decide),
   read_map_no_validation.2.2.1 [1, 2, 3, 4, 5, 6] (by decide) (by decide),
   read_map_no_validation.2.2.2 [1, 2, 3, 4, 5, 6] []
     (read_map_no_validation.2.2.1 [1, 2, 3, 4, 5, 6] (by decide) (by decide))⟩

/-- C7: coverage is monotone.  The covered test used by the frame
update, membership of the cell in visited.take (ts + 1), is
non-decreasing in the timestep: once covered at ts, covered at every
later ts2. -/
theorem coveredAt_monotone (visited : List Cell) (c : Cell) (ts ts2 : Nat)
    (h : ts ≤ ts2) (hc : coveredAt visited ts c = true) :
    coveredAt visited ts2 c = true := by
  simp only [coveredAt, decide_eq_true_eq] at hc ⊢
  have htt : (visited.take (ts2 + 1)).take (ts + 1) = visited.take (ts + 1) := by
    rw [List.take_take]
    congr 1
    omega
  rw [← htt] at hc
  exact List.take_subset _ _ hc

theorem coveredAt_monotone_witness :
    coveredAt [((0 : Int), (0 : Int))] 1 (0, 0) = true :=
  coveredAt_monotone [((0 : Int), (0 : Int))] (0, 0) 0 1 (by decide) (by decide)

/-- C8: the grid-to-render mapping returns exactly
(x + 0.5, y_len - (y + 0.5)), and applying the inverse mapping that sends
a plot position (px, py) to (px - 0.5, y_len - py - 0.5) to its output
recovers the original integer coordinates exactly. -/
theorem robot_grid_to_plot_pos_round_trip (x y y_len : Int) :
    robot_grid_to_plot_pos (x : ℚ) (y : ℚ) (y_len : ℚ)
        = ((x : ℚ) + 1 / 2, (y_len : ℚ) - ((y : ℚ) + 1 / 2))
    ∧ ((robot_grid_to_plot_pos (x : ℚ) (y : ℚ) (y_len : ℚ)).1 - 1 / 2,
       (y_len : ℚ) - (robot_grid_to_plot_pos (x : ℚ) (y : ℚ) (y_len : ℚ)).2 - 1 / 2)
        = ((x : ℚ), (y : ℚ)) := by
  refine ⟨rfl, ?_⟩
  simp only [robot_grid_to_plot_pos, Prod.mk.injEq]
  constructor <;> ring

/-- C4: for every frame f with f below TS_LEN times the path length,
writing t = f / TS_LEN and fraction = (f mod TS_LEN) / TS_LEN, the agent
position computed by the frame update equals
visited t plus fraction times (visited (t + 1) minus visited t) computed
independently per axis when t + 1 is below the path length, and equals
exactly visited t, held constant with no extrapolation, when t equals the
last timestep. -/
theorem interpPos_frame_rule (visited : List Cell) (f : Nat)
    (hf : f < TS_LEN * visited.length) :
    (f / TS_LEN + 1 < visited.length →
      interpPos visited f = some
        (((visited.getD (f / TS_LEN) (0, 0)).1 : ℚ)
            + ((f % TS_LEN : Nat) : ℚ) / (TS_LEN : ℚ)
              * (((visited.getD (f / TS_LEN + 1) (0, 0)).1 : ℚ)
                  - ((visited.getD (f / TS_LEN) (0, 0)).1 : ℚ)),
         ((visited.getD (f / TS_LEN) (0, 0)).2 : ℚ)
            + ((f % TS_LEN : Nat) : ℚ) / (TS_LEN : ℚ)
              * (((visited.getD (f / TS_LEN + 1) (0, 0)).2 : ℚ)
                  - ((visited.getD (f / TS_LEN) (0, 0)).2 : ℚ))))
    ∧ (f / TS_LEN = visited.length - 1 →
      interpPos visited f = some
        (((visited.getD (f / TS_LEN) (0, 0)).1 : ℚ),
         ((visited.getD (f / TS_LEN) (0, 0)).2 : ℚ))) := by
  have ht : f / TS_LEN < visited.length := by
    simp only [TS_LEN] at hf ⊢
    omega
  constructor
  · intro h1
    have hlt : f / TS_LEN < visited.length - 1 := by omega
    simp only [interpPos, List.getElem?_eq_getElem ht, dif_pos hlt,
      List.getD_eq_getElem?_getD, List.getElem?_eq_getElem h1, List.get_eq_getElem,
      Option.getD_some]
  · intro h2
    have hlt : ¬ (f / TS_LEN < visited.length - 1) := by omega
    simp only [interpPos, List.getElem?_eq_getElem ht, dif_neg hlt,
      List.getD_eq_getElem?_getD, List.getElem?_eq_getElem ht, Option.getD_some,
      Option.some.injEq, Prod.mk.injEq]
    constructor <;> ring

theorem interpPos_frame_rule_witness :
    interpPos [((0 : Int), (0 : Int)), (1, 2)] 5 = some (1 / 2, 1)
    ∧ interpPos [((0 : Int), (0 : Int)), (1, 2)] 15 = some (1, 2) := by
  constructor
  · have h := (interpPos_frame_rule [((0 : Int), (0 : Int)), (1, 2)] 5 (by decide)).1
      (by decide)
    rw [h]
    norm_num
  · have h := (interpPos_frame_rule [((0 : Int), (0 : Int)), (1, 2)] 15 (by decide)).2
      (by decide)
    rw [h]
    norm_num

theorem setColor_colors (g : Grid) (c0 : Cell) (s : String) (c : Cell) :
    (setColor g c0 s).colors c = if c = c0 then s else g.colors c := rfl

theorem updateCells_colors_of_lookup_none (visited : List Cell) (ts : Nat) (c : Cell) :
    ∀ (m : MapAt) (g g2 : Grid), updateCells visited ts m g = .ok g2 →
      dictLookup m c = none → g2.colors c = g.colors c := by
  intro m
  induction m with
  | nil =>
    intro g g2 hu _
    simp only [updateCells, Except.ok.injEq] at hu
    rw [← hu]
  | cons p rest ih =>
    obtain ⟨c0, v⟩ := p
    intro g g2 hu hc
    simp only [updateCells] at hu
    by_cases hg : inGrid g c0
    · rw [if_pos hg] at hu
      simp only [dictLookup] at hc
      cases hrest : dictLookup rest c with
      | some v2 => rw [hrest] at hc; simp at hc
      | none =>
        rw [hrest] at hc
        have hne : c ≠ c0 := by
          intro hh
          rw [if_pos hh.symm] at hc
          simp at hc
        rw [ih _ _ hu hrest, setColor_colors, if_neg hne]
    · rw [if_neg hg] at hu
      simp at hu

theorem updateCells_colors_of_lookup_some (visited : List Cell) (ts : Nat)
    (c : Cell) (occ : Int) :
    ∀ (m : MapAt) (g g2 : Grid), updateCells visited ts m g = .ok g2 →
      dictLookup m c = some occ → g2.colors c = cellColor visited ts occ c := by
  intro m
  induction m with
  | nil => intro g g2 _ hc; simp [dictLookup] at hc
  | cons p rest ih =>
    obtain ⟨c0, v⟩ := p
    intro g g2 hu hc
    simp only [updateCells] at hu
    by_cases hg : inGrid g c0
    · rw [if_pos hg] at hu
      simp only [dictLookup] at hc
      cases hrest : dictLookup rest c with
      | some v2 =>
        rw [hrest] at hc
        simp only [Option.some.injEq] at hc
        subst hc
        exact ih _ _ hu hrest
      | none =>
        rw [hrest] at hc
        have hcc : c0 = c ∧ v = occ := by
          by_cases hh : c0 = c
          · rw [if_pos hh] at hc
            simp only [Option.some.injEq] at hc
            exact ⟨hh, hc⟩
          · rw [if_neg hh] at hc
            simp at hc
        obtain ⟨h1, h2⟩ := hcc
        rw [updateCells_colors_of_lookup_none visited ts c rest _ _ hu hrest,
          setColor_colors, if_pos h1.symm, h1, h2]
    · rw [if_neg hg] at hu
      simp at hu

theorem animate_grid_eq (visited : List Cell) (mapDyn : List MapAt)
    (st st2 : AnimState) (f : Nat) (m : MapAt)
    (hok : animate visited mapDyn st f = .ok st2)
    (hm : mapDyn[f / TS_LEN]? = some m) :
    updateCells visited (f / TS_LEN) m st.grid = .ok st2.grid := by
  cases hp : interpPos visited f with
  | none =>
    simp only [animate, hp] at hok
    exact Except.noConfusion hok
  | some pos =>
    cases hyl : animateYLen st.grid with
    | error e =>
      simp only [animate, hp, hyl] at hok
      exact Except.noConfusion hok
    | ok yl =>
      cases hu : updateCells visited (f / TS_LEN) m st.grid with
      | error e =>
        simp only [animate, hp, hyl, hm, hu] at hok
        exact Except.noConfusion hok
      | ok g =>
        simp only [animate, hp, hyl, hm, hu, Except.ok.injEq] at hok
        rw [← hok]

/-- C2: for a successful frame update and any cell present in the map
dict of the current timestep with occupancy occ, the resulting fill color
follows the four-way rule: covered and occ 1 gives the dark green
hex 007500, not covered and occ 1 gives black, covered and occ 0 gives
lime, not covered and occ 0 gives white; the covered test coveredAt takes
only the visited path and the timestep, never the map occupancy. -/
theorem animate_four_way_color_rule (visited : List Cell) (mapDyn : List MapAt)
    (st st2 : AnimState) (f : Nat) (m : MapAt) (c : Cell) (occ : Int)
    (hok : animate visited mapDyn st f = .ok st2)
    (hm : mapDyn[f / TS_LEN]? = some m)
    (hc : dictLookup m c = some occ) :
    (coveredAt visited (f / TS_LEN) c = true → occ = 1 →
      st2.grid.colors c = "#007500")
    ∧ (coveredAt visited (f / TS_LEN) c = false → occ = 1 →
      st2.grid.colors c = "black")
    ∧ (coveredAt visited (f / TS_LEN) c = true → occ = 0 →
      st2.grid.colors c = "lime")
    ∧ (coveredAt visited (f / TS_LEN) c = false → occ = 0 →
      st2.grid.colors c = "white") := by
  have hg := updateCells_colors_of_lookup_some visited (f / TS_LEN) c occ m
    st.grid st2.grid (animate_grid_eq visited mapDyn st st2 f m hok hm) hc
  refine ⟨?_, ?_, ?_, ?_⟩ <;> intro h1 h2 <;> subst h2 <;>
    simp [hg, cellColor, h1]

def demoStart : AnimState :=
  { grid := draw_grid 2 2, robot := (0, 0), timeLabel := 0 }

def c2Result : AnimState :=
  match animate [((0, 0) : Cell)] [[(((0, 0) : Cell), 1)]] demoStart 0 with
  | .ok s => s
  | .error _ => demoStart

theorem animate_four_way_color_rule_witness :
    c2Result.grid.colors (0, 0) = "#007500" :=
  (animate_four_way_color_rule [((0, 0) : Cell)] [[(((0, 0) : Cell), 1)]]
      demoStart c2Result 0 [(((0, 0) : Cell), 1)] (0, 0) 1 rfl rfl rfl).1
    (by decide) rfl

def blackStart : AnimState :=
  { grid := setColor (draw_grid 2 2) (1, 1) "black", robot := (0, 0), timeLabel := 0 }

/-- C3: a cell absent from the map dict of the current timestep keeps
exactly the fill color it had before the frame update; in particular a
cell that was black (OCCUPIED) before, absent from the current map dict
and not visited by now is still black afterwards. -/
theorem animate_sparse_carry_over (visited : List Cell) (mapDyn : List MapAt)
    (st st2 : AnimState) (f : Nat) (m : MapAt) (c : Cell)
    (hok : animate visited mapDyn st f = .ok st2)
    (hm : mapDyn[f / TS_LEN]? = some m)
    (hc : dictLookup m c = none) :
    st2.grid.colors c = st.grid.colors c
    ∧ (coveredAt visited (f / TS_LEN) c = false → st.grid.colors c = "black" →
        st2.grid.colors c = "black") := by
  have hg := updateCells_colors_of_lookup_none visited (f / TS_LEN) c m
    st.grid st2.grid (animate_grid_eq visited mapDyn st st2 f m hok hm) hc
  exact ⟨hg, fun _ hb => by rw [hg, hb]⟩

def c3Result : AnimState :=
  match animate [((0, 0) : Cell), (0, 0)] [[]] blackStart 0 with
  | .ok s => s
  | .error _ => blackStart

theorem animate_sparse_carry_over_witness :
    c3Result.grid.colors (1, 1) = "black" :=
  (animate_sparse_carry_over [((0, 0) : Cell), (0, 0)] [[]] blackStart c3Result
      0 [] (1, 1) rfl rfl rfl).2 (by decide) rfl

/-- C9: occupancy values are never validated and every stored value
other than 1 renders as free.  parseTriples stores any integer occupancy
unchanged, and the frame update only tests equality with 1, so a cell
present in the current map dict with occupancy different from 1 (for
example 2 or -1) resolves to exactly the colors of occupancy 0: lime when
covered and white otherwise. -/
theorem animate_nonbinary_occupancy (visited : List Cell) (mapDyn : List MapAt)
    (st st2 : AnimState) (f : Nat) (m : MapAt) (c : Cell) (occ : Int)
    (hok : animate visited mapDyn st f = .ok st2)
    (hm : mapDyn[f / TS_LEN]? = some m)
    (hc : dictLookup m c = some occ) (hocc : occ ≠ 1) :
    (∀ (x y v : Int) (rest : List Int) (m2 : MapAt),
      parseTriples rest = .ok m2 →
        parseTriples (x :: y :: v :: rest) = .ok (((x, y), v) :: m2))
    ∧ st2.grid.colors c
        = (if coveredAt visited (f / TS_LEN) c then "lime" else "white") := by
  constructor
  · intro x y v rest m2 h2
    simp [parseTriples, h2]
  · have hg := updateCells_colors_of_lookup_some visited (f / TS_LEN) c occ m
      st.grid st2.grid (animate_grid_eq visited mapDyn st st2 f m hok hm) hc
    rw [hg, cellColor, if_neg hocc, if_neg hocc]

def c9Result : AnimState :=
  match animate [((0, 0) : Cell)] [[(((0, 0) : Cell), 2)]] demoStart 0 with
  | .ok s => s
  | .error _ => demoStart

theorem animate_nonbinary_occupancy_witness :
    c9Result.grid.colors (0, 0) = "lime" := by
  have h := (animate_nonbinary_occupancy [((0, 0) : Cell)]
      [[(((0, 0) : Cell), 2)]] demoStart c9Result 0 [(((0, 0) : Cell), 2)]
      (0, 0) 2 rfl rfl rfl (by decide)).2
  simpa using h

theorem updateCells_dims (visited : List Cell) (ts : Nat) :
    ∀ (m : MapAt) (g g2 : Grid), updateCells visited ts m g = .ok g2 →
      g2.x_len = g.x_len ∧ g2.y_len = g.y_len := by
  intro m
  induction m with
  | nil =>
    intro g g2 hu
    simp only [updateCells, Except.ok.injEq] at hu
    rw [← hu]
    exact ⟨rfl, rfl⟩
  | cons p rest ih =>
    obtain ⟨c0, v⟩ := p
    intro g g2 hu
    simp only [updateCells] at hu
    by_cases hg : inGrid g c0
    · rw [if_pos hg] at hu
      exact ih (setColor g c0 (cellColor visited ts v c0)) g2 hu
    · rw [if_neg hg] at hu
      exact Except.noConfusion hu

theorem inGrid_eq_of_dims (g g2 : Grid) (hx : g.x_len = g2.x_len)
    (hy : g.y_len = g2.y_len) (c : Cell) : inGrid g c = inGrid g2 c := by
  simp only [inGrid, hx, hy]

theorem updateCells_isOk (visited : List Cell) (ts : Nat) :
    ∀ (m : MapAt) (g : Grid), (∀ p ∈ m, inGrid g p.1 = true) →
      ∃ g2, updateCells visited ts m g = .ok g2 := by
  intro m
  induction m with
  | nil => intro g _; exact ⟨g, rfl⟩
  | cons p rest ih =>
    obtain ⟨c0, v⟩ := p
    intro g hall
    have hg : inGrid g c0 = true := hall (c0, v) (List.mem_cons_self _ _)
    have hrest : ∀ p ∈ rest,
        inGrid (setColor g c0 (cellColor visited ts v c0)) p.1 = true := by
      intro p hp
      exact hall p (List.mem_cons_of_mem _ hp)
    obtain ⟨g2, hg2⟩ := ih (setColor g c0 (cellColor visited ts v c0)) hrest
    exact ⟨g2, by simp only [updateCells, if_pos hg, hg2]⟩

theorem foldl_max_le_of_le (b : Int) :
    ∀ (ys : List Int) (y : Int), y ≤ b → (∀ a ∈ ys, a ≤ b) →
      ys.foldl max y ≤ b := by
  intro ys
  induction ys with
  | nil => intro y hy _; simpa using hy
  | cons a ys ih =>
    intro y hy hall
    simp only [List.foldl_cons]
    exact ih (max y a) (max_le hy (hall a (List.mem_cons_self a ys)))
      (fun a2 ha2 => hall a2 (List.mem_cons_of_mem a ha2))

theorem le_foldl_max_init : ∀ (ys : List Int) (y : Int), y ≤ ys.foldl max y := by
  intro ys
  induction ys with
  | nil => intro y; simp
  | cons a ys ih =>
    intro y
    simp only [List.foldl_cons]
    exact le_trans (le_max_left y a) (ih (max y a))

theorem le_foldl_max_of_mem :
    ∀ (ys : List Int) (y : Int), ∀ a ∈ ys, a ≤ ys.foldl max y := by
  intro ys
  induction ys with
  | nil => intro y a ha; cases ha
  | cons a0 ys ih =>
    intro y a ha
    simp only [List.foldl_cons]
    rcases List.mem_cons.mp ha with h | h
    · subst h
      exact le_trans (le_max_right y a) (le_foldl_max_init ys (max y a))
    · exact ih (max y a0) a h

theorem max?_eq_some_of_mem_of_le (l : List Int) (a : Int) (ha : a ∈ l)
    (hb : ∀ b ∈ l, b ≤ a) : l.max? = some a := by
  match l, ha with
  | x :: xs, ha =>
    show some (xs.foldl max x) = some a
    congr 1
    apply le_antisymm
    · exact foldl_max_le_of_le a xs x (hb x (List.mem_cons_self x xs))
        (fun b hbm => hb b (List.mem_cons_of_mem x hbm))
    · rcases List.mem_cons.mp ha with h | h
      · subst h
        exact le_foldl_max_init xs a
      · exact le_foldl_max_of_mem xs x a h

theorem mem_gridKeys_of_lt (g : Grid) (x y : Nat)
    (hx2 : x < g.x_len) (hy2 : y < g.y_len) :
    ((x : Int), (y : Int)) ∈ gridKeys g :=
  List.mem_flatMap.mpr ⟨x, List.mem_range.mpr hx2,
    List.mem_map.mpr ⟨y, List.mem_range.mpr hy2, rfl⟩⟩

theorem of_mem_gridKeys (g : Grid) (p : Cell) (hp : p ∈ gridKeys g) :
    ∃ x y : Nat, x < g.x_len ∧ y < g.y_len ∧ p = ((x : Int), (y : Int)) := by
  obtain ⟨x, hxm, hpm⟩ := List.mem_flatMap.mp hp
  obtain ⟨y, hym, hpy⟩ := List.mem_map.mp hpm
  exact ⟨x, y, List.mem_range.mp hxm, List.mem_range.mp hym, hpy.symm⟩

theorem animateYLen_eq_ok (g : Grid) (hx : 1 ≤ g.x_len) (hy : 1 ≤ g.y_len) :
    animateYLen g = .ok (g.y_len : Int) := by
  have hmem : ((g.y_len : Int) - 1) ∈ (gridKeys g).map (fun k => k.2) := by
    refine List.mem_map.mpr ⟨(((0 : Nat) : Int), ((g.y_len - 1 : Nat) : Int)),
      mem_gridKeys_of_lt g 0 (g.y_len - 1) (by omega) (by omega), ?_⟩
    show ((g.y_len - 1 : Nat) : Int) = (g.y_len : Int) - 1
    omega
  have hbound : ∀ b ∈ (gridKeys g).map (fun k => k.2),
      b ≤ (g.y_len : Int) - 1 := by
    intro b hb
    obtain ⟨p, hp, hproj⟩ := List.mem_map.mp hb
    obtain ⟨x, y, hxlt, hylt, hpe⟩ := of_mem_gridKeys g p hp
    subst hpe
    rw [← hproj]
    show ((y : Nat) : Int) ≤ (g.y_len : Int) - 1
    omega
  have hmax := max?_eq_some_of_mem_of_le _ _ hmem hbound
  simp only [animateYLen, hmax]
  congr 1
  omega

theorem interpPos_eq_some (visited : List Cell) (f : Nat)
    (h : f / TS_LEN < visited.length) : ∃ p, interpPos visited f = some p := by
  simp only [interpPos, List.getElem?_eq_getElem h]
  exact ⟨_, rfl⟩

theorem animate_isOk (visited : List Cell) (mapDyn : List MapAt)
    (st : AnimState) (f : Nat)
    (hx : 1 ≤ st.grid.x_len) (hy : 1 ≤ st.grid.y_len)
    (hv : f / TS_LEN < visited.length) (hd : f / TS_LEN < mapDyn.length)
    (hkeys : ∀ p ∈ mapDyn[f / TS_LEN], inGrid st.grid p.1 = true) :
    ∃ st2, animate visited mapDyn st f = .ok st2
      ∧ st2.grid.x_len = st.grid.x_len ∧ st2.grid.y_len = st.grid.y_len := by
  obtain ⟨pos, hp⟩ := interpPos_eq_some visited f hv
  have hyl := animateYLen_eq_ok st.grid hx hy
  have hm : mapDyn[f / TS_LEN]? = some (mapDyn[f / TS_LEN]) :=
    List.getElem?_eq_getElem hd
  obtain ⟨g2, hg2⟩ :=
    updateCells_isOk visited (f / TS_LEN) (mapDyn[f / TS_LEN]) st.grid hkeys
  have hdims := updateCells_dims visited (f / TS_LEN) _ _ _ hg2
  refine ⟨{ grid := g2,
            robot := robot_grid_to_plot_pos pos.1 pos.2 ((st.grid.y_len : Int) : ℚ),
            timeLabel := f / TS_LEN }, ?_, hdims.1, hdims.2⟩
  simp only [animate, hp, hyl, hm, hg2]

theorem animate_error_of_short_map (visited : List Cell) (mapDyn : List MapAt)
    (st : AnimState) (f : Nat)
    (hv : f / TS_LEN < visited.length) (hd : mapDyn.length ≤ f / TS_LEN) :
    animate visited mapDyn st f = .error () := by
  obtain ⟨pos, hp⟩ := interpPos_eq_some visited f hv
  cases hyl : animateYLen st.grid with
  | error e =>
    cases e
    simp only [animate, hp, hyl]
  | ok yl =>
    have hm : mapDyn[f / TS_LEN]? = none := List.getElem?_eq_none hd
    simp only [animate, hp, hyl, hm]

theorem runPlayback_prefix_isOk (visited : List Cell) (mapDyn : List MapAt)
    (st0 : AnimState)
    (hx0 : 1 ≤ st0.grid.x_len) (hy0 : 1 ≤ st0.grid.y_len)
    (hlv : mapDyn.length ≤ visited.length)
    (hkeys : ∀ m ∈ mapDyn, ∀ p ∈ m, inGrid st0.grid p.1 = true) :
    ∀ n, n ≤ TS_LEN * mapDyn.length →
      ∃ st2, runPlayback visited mapDyn st0 n = .ok st2
        ∧ st2.grid.x_len = st0.grid.x_len ∧ st2.grid.y_len = st0.grid.y_len := by
  intro n
  induction n with
  | zero => intro _; exact ⟨st0, rfl, rfl, rfl⟩
  | succ n ih =>
    intro hn
    obtain ⟨st2, hok, hx, hy⟩ := ih (by omega)
    have hts : n / TS_LEN < mapDyn.length := by
      have hlt : n < TS_LEN * mapDyn.length := by omega
      simp only [TS_LEN] at hlt ⊢
      omega
    have hv : n / TS_LEN < visited.length := lt_of_lt_of_le hts hlv
    have hk2 : ∀ p ∈ mapDyn[n / TS_LEN], inGrid st2.grid p.1 = true := by
      intro p hp
      rw [inGrid_eq_of_dims st2.grid st0.grid hx hy]
      exact hkeys _ (List.getElem_mem _) p hp
    obtain ⟨st3, h3, hx3, hy3⟩ := animate_isOk visited mapDyn st2 n
      (by rw [hx]; exact hx0) (by rw [hy]; exact hy0) hv hts hk2
    exact ⟨st3, by simp only [runPlayback, hok, h3],
      by rw [hx3, hx], by rw [hy3, hy]⟩

/-- C6 amended: run_animation performs no length check between the two
logs.  With the map log shorter than the visited log (and nonempty, with
its cells inside the grid, on a grid with both dimensions positive so
that line 107 has a nonempty key list to take the max of), playback does
start: every frame below TS_LEN times the map log length succeeds, and
the next frame, still inside the run of TS_LEN times the visited length
frames, raises an uncaught IndexError when indexing the map log at its
length. -/
theorem run_animation_length_mismatch (x_len y_len : Nat) (visited : List Cell)
    (mapDyn : List MapAt)
    (h1 : mapDyn.length < visited.length) (h2 : 1 ≤ mapDyn.length)
    (hx : 1 ≤ x_len) (hy : 1 ≤ y_len)
    (hkeys : ∀ m ∈ mapDyn, ∀ p ∈ m, inGrid (draw_grid x_len y_len) p.1 = true) :
    (run_animation x_len y_len visited mapDyn (TS_LEN * mapDyn.length)).isOk = true
    ∧ run_animation x_len y_len visited mapDyn (TS_LEN * mapDyn.length + 1)
        = .error ()
    ∧ TS_LEN * mapDyn.length + 1 ≤ totalFrames visited := by
  have hv0 : 0 < visited.length := by omega
  have hs : visited[0]? = some (visited[0]) := List.getElem?_eq_getElem hv0
  have hrun : ∀ k, run_animation x_len y_len visited mapDyn k
      = runPlayback visited mapDyn (initAnimState x_len y_len (visited[0])) k := by
    intro k
    simp only [run_animation, hs]
  have hkeys0 : ∀ m ∈ mapDyn, ∀ p ∈ m,
      inGrid (initAnimState x_len y_len (visited[0])).grid p.1 = true := hkeys
  obtain ⟨stN, hokN, hxN, hyN⟩ := runPlayback_prefix_isOk visited mapDyn
    (initAnimState x_len y_len (visited[0])) hx hy (le_of_lt h1) hkeys0
    (TS_LEN * mapDyn.length) le_rfl
  have hts : (TS_LEN * mapDyn.length) / TS_LEN = mapDyn.length :=
    Nat.mul_div_cancel_left mapDyn.length (by decide)
  refine ⟨?_, ?_, ?_⟩
  · rw [hrun, hokN]
    rfl
  · have herr := animate_error_of_short_map visited mapDyn stN
      (TS_LEN * mapDyn.length) (by rw [hts]; exact h1) (by rw [hts])
    rw [hrun]
    simp only [runPlayback, hokN, herr]
  · simp only [totalFrames, TS_LEN]
    omega

theorem run_animation_length_mismatch_witness :
    (run_animation 2 2 [((0, 0) : Cell), (0, 0)] [[]] 10).isOk = true
    ∧ run_animation 2 2 [((0, 0) : Cell), (0, 0)] [[]] 11 = .error ()
    ∧ 11 ≤ totalFrames [((0, 0) : Cell), (0, 0)] :=
  run_animation_length_mismatch 2 2 [((0, 0) : Cell), (0, 0)] [[]]
    (by decide) (by decide) (by decide) (by decide) (by simp)

/-- C6 counterexample: with a visited log of length 2 and a map log of
length 1 the lengths differ, yet the driver does not refuse to start: the
first frame update succeeds, and the full run of totalFrames frames then
runs off the end of the shorter map log and fails. -/
theorem run_animation_mismatch_counterexample :
    ([((0, 0) : Cell), (0, 0)].length ≠ ([[]] : List MapAt).length)
    ∧ (run_animation 2 2 [((0, 0) : Cell), (0, 0)] [[]] 1).isOk = true
    ∧ run_animation 2 2 [((0, 0) : Cell), (0, 0)] [[]]
        (totalFrames [((0, 0) : Cell), (0, 0)]) = .error () :=
  ⟨by decide, rfl, rfl⟩

def exampleVisited : List Cell := [(0, 0), (0, 1), (1, 1)]

def exampleMapDyn : List MapAt := [[((1, 1), 1)], [], [((0, 0), 0)]]

/-- C1 counterexample: in the end-to-end scenario (visited path
(0,0), (0,1), (1,1); map dynamics with (1,1) occupied at timestep 0,
nothing at 1, (0,0) free at 2; grid 2 by 2; TS_LEN 10), after the
frame-20 update cell (1,1) is still black (OCCUPIED), not the dark green
hex 007500 (COVERED_OCCUPIED) that the claim states, because (1,1) is
absent from the timestep 2 map dict and the update never touches it. -/
theorem animation_scenario_counterexample :
    (run_animation 2 2 exampleVisited exampleMapDyn 21).map
        (fun st => st.grid.colors (1, 1)) = .ok "black"
    ∧ (run_animation 2 2 exampleVisited exampleMapDyn 21).map
        (fun st => st.grid.colors (1, 1)) ≠ .ok "#007500" := by
  refine ⟨rfl, fun h => ?_⟩
  rw [show (run_animation 2 2 exampleVisited exampleMapDyn 21).map
      (fun st => st.grid.colors (1, 1)) = .ok "black" from rfl] at h
  exact absurd (Except.ok.inj h) (by decide)

/-- C1 amended: in the end-to-end scenario the animation has 30
frames; after the frame-0 update cell (1,1) is black (OCCUPIED); after
the frame-10 update it is still black; after the frame-20 update cell
(1,1) is STILL black, by sparse carry-over, while cell (0,0) is lime
(COVERED_FREE). -/
theorem animation_scenario_amended :
    totalFrames exampleVisited = 30
    ∧ (run_animation 2 2 exampleVisited exampleMapDyn 1).map
        (fun st => st.grid.colors (1, 1)) = .ok "black"
    ∧ (run_animation 2 2 exampleVisited exampleMapDyn 11).map
        (fun st => st.grid.colors (1, 1)) = .ok "black"
    ∧ (run_animation 2 2 exampleVisited exampleMapDyn 21).map
        (fun st => st.grid.colors (1, 1)) = .ok "black"
    ∧ (run_animation 2 2 exampleVisited exampleMapDyn 21).map
        (fun st => st.grid.colors (0, 0)) = .ok "lime" :=
  ⟨rfl, rfl, rfl, rfl, rfl⟩
